import Mathlib

/-!
Shallow embedding of `go-fitz` (`fitz.go`), a Go wrapper around the MuPDF
fitz library.  The native MuPDF layer is opaque C code; its observable
results (page text, object subtypes, PNG bytes, outline tree, metadata
strings) are modelled as oracle fields carried by the `Document`, while the
Go-level control flow (bounds checks, error selection, locking, traversal,
byte sniffing) is translated faithfully from the source.
-/

namespace Fitz

/-- The error values declared at the top of `fitz.go` (`ErrNoSuchFile`,
`ErrCreateContext`, ...), plus `ioError` for foreign `error` values that the
Go code passes through verbatim (e.g. from `filepath.Abs` or `ioutil.ReadAll`). -/
inductive Err where
  | noSuchFile
  | createContext
  | openDocument
  | openMemory
  | pageMissing
  | objMissing
  | notImage
  | createPixmap
  | pixmapSamples
  | needsPassword
  | loadOutline
  | ioError (msg : String)
deriving DecidableEq

/-- The eleven fixed error values of the package's own taxonomy. -/
def fitzTaxonomy : List Err :=
  [.noSuchFile, .createContext, .openDocument, .openMemory, .pageMissing,
   .objMissing, .notImage, .createPixmap, .pixmapSamples, .needsPassword,
   .loadOutline]

/-- A `fz_outline` node as seen through cgo: a `title`, a `uri`, a `page`
number, a vertical coordinate `y`, and the two pointers `down` (first child)
and `next` (next sibling).  `nil` models a NULL pointer. -/
inductive FzOutline where
  | nil
  | node (title uri : String) (page : Int) (y : Float)
         (down next : FzOutline)

/-- The `Outline` struct of `fitz.go`. -/
structure Outline where
  Level : Int
  Title : String
  URI : String
  Page : Int
  Top : Float

/-- Oracle for everything the native MuPDF layer reports about one opened
document: whether `pdf_needs_password` returns true, the results of
`pdf_count_pages` / `pdf_count_objects`, and the per-page / per-object /
metadata query results of the later native calls. -/
structure NativeDoc where
  needsPassword : Bool
  pages : Int
  objs : Int
  pageText : Int → String
  objIsImage : Int → Bool
  objPng : Int → List Nat
  outline : FzOutline
  meta : String → String

/-- The `Document` struct of `fitz.go`: the `ctx` and `pdf` pointers are
modelled by liveness flags plus the `NativeDoc` oracle the `pdf` pointer
dereferences to; `pageTotal` and `objTotal` are the Go-side copies filled in
at open time.  Note the struct has no « closed » flag. -/
structure Document where
  ctxLive : Bool
  pdfLive : Bool
  native : NativeDoc
  pageTotal : Int
  objTotal : Int

/-- The zero value `Document{}` that `New` / `NewFromMemory` start from. -/
def Document.zero : Document where
  ctxLive := false
  pdfLive := false
  native :=
    { needsPassword := false, pages := 0, objs := 0,
      pageText := fun _ => "", objIsImage := fun _ => false,
      objPng := fun _ => [], outline := .nil, meta := fun _ => "" }
  pageTotal := 0
  objTotal := 0

/-- `NumPage`: returns the stored `pageTotal`. -/
def Document.NumPage (f : Document) : Int := f.pageTotal

/-- `NumObj`: returns the stored `objTotal`. -/
def Document.NumObj (f : Document) : Int := f.objTotal

/-- `Text(pageNumber)`: after the bounds check
`pageNumber < 0 || f.pageTotal <= pageNumber` the code runs the stext
pipeline (load page, bound page, stext device, run page, buffer) which has
no Go-visible failure path; its string result is the `pageText` oracle. -/
def Document.Text (f : Document) (pageNumber : Int) : Except Err String :=
  if pageNumber < 0 ∨ f.pageTotal ≤ pageNumber then
    .error .pageMissing
  else
    .ok (f.native.pageText pageNumber)

/-- `isImage(obj)`: `pdf_dict_get(..., Subtype) == PDF_NAME_Image`,
modelled by the `objIsImage` oracle keyed by object number. -/
def Document.isImage (f : Document) (objNumber : Int) : Bool :=
  f.native.objIsImage objNumber

/-- `saveImage(objNumber)`: the PNG re-encoding pipeline
(`pdf_new_indirect`, `pdf_load_image`, `fz_new_buffer_from_image_as_png`),
modelled by the `objPng` oracle. -/
def Document.saveImage (f : Document) (objNumber : Int) : List Nat :=
  f.native.objPng objNumber

/-- `ImageBytes(objNumber)`: bounds check
`objNumber <= 0 || f.objTotal <= objNumber` yields `ErrObjMissing`; then
`isImage` decides between `saveImage` bytes and `ErrNotImage`. -/
def Document.ImageBytes (f : Document) (objNumber : Int) : Except Err (List Nat) :=
  if objNumber ≤ 0 ∨ f.objTotal ≤ objNumber then
    .error .objMissing
  else if f.isImage objNumber then
    .ok (f.saveImage objNumber)
  else
    .error .notImage

/-- The recursive closure `walk` inside `ToC`: emit the current node at the
given level, then walk `down` at `level+1`, then continue with `next` at the
same level. -/
def walk : FzOutline → Int → List Outline
  | .nil, _ => []
  | .node t u p y down next, level =>
    { Level := level, Title := t, URI := u, Page := p, Top := y } ::
      (walk down (level + 1) ++ walk next level)

/-- `ToC()`: `pdf_load_outline` returning NULL yields `ErrLoadOutline`;
otherwise the tree is flattened by `walk(outline, 1)`. -/
def Document.ToC (f : Document) : Except Err (List Outline) :=
  match f.native.outline with
  | .nil => .error .loadOutline
  | .node t u p y d n => .ok (walk (.node t u p y d n) 1)

/-- `Metadata()`: ten fixed `pdf_lookup_metadata` lookups (each through a
256-byte buffer whose trailing NULs are trimmed — absorbed into the `meta`
oracle), stored under ten fixed keys.  The Go function has no error result. -/
def Document.Metadata (f : Document) : List (String × String) :=
  [ ("format", f.native.meta "format"),
    ("encryption", f.native.meta "encryption"),
    ("title", f.native.meta "info:Title"),
    ("author", f.native.meta "info:Author"),
    ("subject", f.native.meta "info:Subject"),
    ("keywords", f.native.meta "info:Keywords"),
    ("creator", f.native.meta "info:Creator"),
    ("producer", f.native.meta "info:Producer"),
    ("creationDate", f.native.meta "info:CreationDate"),
    ("modDate", f.native.meta "info:modDate") ]

/-- `Close()`: drops the document, then the context, and returns `nil`.
No closed flag is set beyond the pointers becoming dangling. -/
def Document.Close (f : Document) : Document × Option Err :=
  ({ f with ctxLive := false, pdfLive := false }, none)

/-- `contentType(b)`: byte-for-byte translation of the magic-byte sniffer;
`byteAt` is Go's `b[i]` (only read after a length guard in the source). -/
def byteAt (b : List Nat) (i : Nat) : Nat := b.getD i 0

/-- `contentType` from `fitz.go`. -/
def contentType (b : List Nat) : String :=
  if 3 < b.length ∧ byteAt b 0 = 0x25 ∧ byteAt b 1 = 0x50 ∧
      byteAt b 2 = 0x44 ∧ byteAt b 3 = 0x46 then
    "application/pdf"
  else if 57 < b.length ∧ byteAt b 0 = 0x50 ∧ byteAt b 1 = 0x4B ∧
      byteAt b 2 = 0x3 ∧ byteAt b 3 = 0x4 ∧
      byteAt b 30 = 0x6D ∧ byteAt b 31 = 0x69 ∧ byteAt b 32 = 0x6D ∧
      byteAt b 33 = 0x65 ∧ byteAt b 34 = 0x74 ∧ byteAt b 35 = 0x79 ∧
      byteAt b 36 = 0x70 ∧ byteAt b 37 = 0x65 ∧ byteAt b 38 = 0x61 ∧
      byteAt b 39 = 0x70 ∧ byteAt b 40 = 0x70 ∧ byteAt b 41 = 0x6C ∧
      byteAt b 42 = 0x69 ∧ byteAt b 43 = 0x63 ∧ byteAt b 44 = 0x61 ∧
      byteAt b 45 = 0x74 ∧ byteAt b 46 = 0x69 ∧ byteAt b 47 = 0x6F ∧
      byteAt b 48 = 0x6E ∧ byteAt b 49 = 0x2F ∧ byteAt b 50 = 0x65 ∧
      byteAt b 51 = 0x70 ∧ byteAt b 52 = 0x75 ∧ byteAt b 53 = 0x62 ∧
      byteAt b 54 = 0x2B ∧ byteAt b 55 = 0x7A ∧ byteAt b 56 = 0x69 ∧
      byteAt b 57 = 0x70 then
    "application/epub+zip"
  else
    ""

/-- Spec-side reading of « b has at least 4 bytes and starts with the ASCII
bytes %PDF ». -/
def pdfSpec (b : List Nat) : Prop :=
  4 ≤ b.length ∧
    (List.range 4).map (byteAt b) = "%PDF".toList.map Char.toNat

/-- Spec-side reading of « b has at least 58 bytes, its first four bytes are
50 4B 03 04, and bytes 30 through 57 spell `mimetypeapplication/epub+zip` ». -/
def epubSpec (b : List Nat) : Prop :=
  58 ≤ b.length ∧
    (List.range 4).map (byteAt b) = [0x50, 0x4B, 0x03, 0x04] ∧
    (List.range 28).map (fun i => byteAt b (30 + i)) =
      "mimetypeapplication/epub+zip".toList.map Char.toNat

/-- Oracle for the environment calls made by `New(filename)`:
`filepath.Abs` (may fail with a foreign error), `os.Stat` (file existence),
`fz_new_context_imp` (NULL on allocation failure), `pdf_open_document`
(NULL on failure), and the resulting native document state. -/
structure FileEnv where
  absOk : Bool
  absErr : String
  fileExists : Bool
  ctxOk : Bool
  openOk : Bool
  parsed : NativeDoc

/-- Oracle for the environment calls made by `NewFromMemory(b)`:
`fz_new_context_imp`, `fz_open_memory`, `pdf_open_document_with_stream`,
and the resulting native document state. -/
structure MemEnv where
  ctxOk : Bool
  streamOk : Bool
  openOk : Bool
  parsed : NativeDoc

/-- `New(filename)`.  Mirrors the control flow exactly: early returns for
`filepath.Abs` failure (foreign error passed through), missing file, and
NULL context; after that the code does NOT return early — a NULL `pdf`
merely sets `err = ErrOpenDocument`, which `pdf_needs_password` may then
overwrite with `ErrNeedsPassword`, and the page/object counts are populated
unconditionally before returning the (possibly partial) handle. -/
def New (env : FileEnv) : Document × Option Err :=
  if env.absOk = false then (Document.zero, some (.ioError env.absErr))
  else if env.fileExists = false then (Document.zero, some .noSuchFile)
  else if env.ctxOk = false then (Document.zero, some .createContext)
  else
    ({ ctxLive := true, pdfLive := env.openOk, native := env.parsed,
       pageTotal := env.parsed.pages, objTotal := env.parsed.objs },
     if env.parsed.needsPassword then some .needsPassword
     else if env.openOk = false then some .openDocument
     else none)

/-- `NewFromMemory(b)`.  Same partial-construction pattern as `New`: after
the context and stream checks there is no early return; a NULL `pdf` sets
`err = ErrOpenDocument`, `pdf_needs_password` may overwrite it with
`ErrNeedsPassword`, and the counts are populated regardless. -/
def NewFromMemory (env : MemEnv) : Document × Option Err :=
  if env.ctxOk = false then (Document.zero, some .createContext)
  else if env.streamOk = false then
    ({ Document.zero with ctxLive := true }, some .openMemory)
  else
    ({ ctxLive := true, pdfLive := env.openOk, native := env.parsed,
       pageTotal := env.parsed.pages, objTotal := env.parsed.objs },
     if env.parsed.needsPassword then some .needsPassword
     else if env.openOk = false then some .openDocument
     else none)

/-- One step of an `io.Reader`: a chunk of bytes, end of stream, or a read
error. -/
inductive ReadStep where
  | chunk (b : List Nat)
  | eof
  | fail (e : String)

/-- `ioutil.ReadAll`: concatenates every chunk up to end of stream, or
reports the first read error. -/
def readAll : List ReadStep → Except String (List Nat)
  | [] => .ok []
  | .eof :: _ => .ok []
  | .fail e :: _ => .error e
  | .chunk b :: rest => (readAll rest).map (fun t => b ++ t)

/-- `NewFromReader(r)`: drain the reader with `ReadAll`; on a read error
return `(nil, err)` with the foreign error untranslated; otherwise delegate
to `NewFromMemory` on the drained bytes.  The native oracle is a function of
the byte string handed to `NewFromMemory`. -/
def NewFromReader (nativeOf : List Nat → MemEnv) (r : List ReadStep) :
    Option Document × Option Err :=
  match readAll r with
  | .error e => (none, some (.ioError e))
  | .ok b => ((NewFromMemory (nativeOf b)).1, (NewFromMemory (nativeOf b)).2)

/-- Lock/native events emitted by an operation, in program order.
`lock` / `unlock` are `f.mtx.Lock()` / `f.mtx.Unlock()`; `native s` is the
cgo call `s` into the non-reentrant MuPDF context. -/
inductive Event where
  | lock
  | unlock
  | native (name : String)
deriving DecidableEq

/-- Checks a trace starting from a given lock depth: every native call must
happen at positive depth, `unlock` needs positive depth, and the trace must
end back at depth zero (every acquired lock released on every exit path). -/
def guardedFrom : List Event → Nat → Bool
  | [], d => d == 0
  | .lock :: r, d => guardedFrom r (d + 1)
  | .unlock :: r, d => d != 0 && guardedFrom r (d - 1)
  | .native _ :: r, d => d != 0 && guardedFrom r d

/-- A trace is well locked when, starting unlocked, all native calls happen
under the lock and the lock is released by the end. -/
def wellLocked (tr : List Event) : Bool := guardedFrom tr 0

/-- Event trace of `Text`: `mtx.Lock()` then, on the error path, only the
deferred `Unlock`; on the success path the stext pipeline's native calls
(including the deferred drops, which run in reverse order at return) and
then the deferred `Unlock`. -/
def textTrace (f : Document) (pageNumber : Int) : List Event :=
  .lock ::
    (if pageNumber < 0 ∨ f.pageTotal ≤ pageNumber then
      [.unlock]
    else
      [.native "pdf_load_page", .native "pdf_bound_page", .native "fz_scale",
       .native "fz_new_stext_page", .native "fz_new_stext_device",
       .native "fz_enable_device_hints", .native "pdf_run_page",
       .native "fz_close_device", .native "fz_new_buffer_from_stext_page",
       .native "fz_string_from_buffer", .native "fz_drop_buffer",
       .native "fz_drop_device", .native "fz_drop_stext_page",
       .native "fz_drop_page", .unlock])

/-- Event trace of `ImageBytes`: `mtx.Lock()` then either the deferred
`Unlock` (bounds error), or `pdf_load_object` plus the `isImage` dictionary
lookups, then on the image branch the `saveImage` pipeline, and the deferred
`Unlock` on every path. -/
def imageBytesTrace (f : Document) (objNumber : Int) : List Event :=
  .lock ::
    (if objNumber ≤ 0 ∨ f.objTotal ≤ objNumber then
      [.unlock]
    else
      [.native "pdf_load_object", .native "pdf_dict_get",
       .native "pdf_name_eq"] ++
        (if f.isImage objNumber then
          [.native "pdf_new_indirect", .native "pdf_load_image",
           .native "fz_new_buffer_from_image_as_png",
           .native "fz_buffer_storage", .native "fz_string_from_buffer",
           .native "fz_drop_buffer", .native "fz_drop_image",
           .native "pdf_drop_obj"]
        else []) ++ [.unlock])

/-- Event trace of `Image`: it calls `ImageBytes` (which locks) and then
decodes the PNG bytes in pure Go, adding no native calls of its own. -/
def imageTrace (f : Document) (objNumber : Int) : List Event :=
  imageBytesTrace f objNumber

/-- Event trace of `ToC`: `pdf_load_outline`, and on the non-NULL path the
deferred `fz_drop_outline`.  The function never touches `f.mtx`. -/
def tocTrace (f : Document) : List Event :=
  .native "pdf_load_outline" ::
    (match f.native.outline with
     | .nil => []
     | .node _ _ _ _ _ _ => [.native "fz_drop_outline"])

/-- Event trace of `Metadata`: ten `pdf_lookup_metadata` calls.  The
function never touches `f.mtx`. -/
def metadataTrace (_f : Document) : List Event :=
  List.replicate 10 (.native "pdf_lookup_metadata")

/-- True when a trace contains at least one native call. -/
def touchesNative (tr : List Event) : Bool :=
  tr.any fun e => match e with
    | .native _ => true
    | _ => false

/-- A concrete native-layer oracle used to instantiate theorems. -/
def sampleNative : NativeDoc where
  needsPassword := false
  pages := 2
  objs := 5
  pageText := fun _ => "hello"
  objIsImage := fun n => n == 1
  objPng := fun _ => [137, 80, 78, 71]
  outline :=
    .node "Intro" "" 0 0.0
      (.node "Detail" "" 1 0.0 .nil .nil)
      (.node "End" "#end" 1 0.0 .nil .nil)
  meta := fun _ => ""

/-- A concrete opened document (2 pages, 5 objects, object 1 an image). -/
def sampleDoc : Document where
  ctxLive := true
  pdfLive := true
  native := sampleNative
  pageTotal := 2
  objTotal := 5

/-- Pointwise form of `pdfSpec`. -/
theorem pdfSpec_iff (b : List Nat) :
    pdfSpec b ↔
      (4 ≤ b.length ∧ byteAt b 0 = 0x25 ∧ byteAt b 1 = 0x50 ∧
        byteAt b 2 = 0x44 ∧ byteAt b 3 = 0x46) := by
  unfold pdfSpec
  have hm : "%PDF".toList.map Char.toNat = [0x25, 0x50, 0x44, 0x46] := by
    decide
  have hr : (List.range 4).map (byteAt b) =
      [byteAt b 0, byteAt b 1, byteAt b 2, byteAt b 3] := rfl
  rw [hm, hr]
  simp [and_assoc]

/-- Pointwise form of `epubSpec`. -/
theorem epubSpec_iff (b : List Nat) :
    epubSpec b ↔
      (58 ≤ b.length ∧ byteAt b 0 = 0x50 ∧ byteAt b 1 = 0x4B ∧
        byteAt b 2 = 0x3 ∧ byteAt b 3 = 0x4 ∧
        byteAt b 30 = 0x6D ∧ byteAt b 31 = 0x69 ∧ byteAt b 32 = 0x6D ∧
        byteAt b 33 = 0x65 ∧ byteAt b 34 = 0x74 ∧ byteAt b 35 = 0x79 ∧
        byteAt b 36 = 0x70 ∧ byteAt b 37 = 0x65 ∧ byteAt b 38 = 0x61 ∧
        byteAt b 39 = 0x70 ∧ byteAt b 40 = 0x70 ∧ byteAt b 41 = 0x6C ∧
        byteAt b 42 = 0x69 ∧ byteAt b 43 = 0x63 ∧ byteAt b 44 = 0x61 ∧
        byteAt b 45 = 0x74 ∧ byteAt b 46 = 0x69 ∧ byteAt b 47 = 0x6F ∧
        byteAt b 48 = 0x6E ∧ byteAt b 49 = 0x2F ∧ byteAt b 50 = 0x65 ∧
        byteAt b 51 = 0x70 ∧ byteAt b 52 = 0x75 ∧ byteAt b 53 = 0x62 ∧
        byteAt b 54 = 0x2B ∧ byteAt b 55 = 0x7A ∧ byteAt b 56 = 0x69 ∧
        byteAt b 57 = 0x70) := by
  unfold epubSpec
  have hm : "mimetypeapplication/epub+zip".toList.map Char.toNat =
      [0x6D, 0x69, 0x6D, 0x65, 0x74, 0x79, 0x70, 0x65, 0x61, 0x70, 0x70,
       0x6C, 0x69, 0x63, 0x61, 0x74, 0x69, 0x6F, 0x6E, 0x2F, 0x65, 0x70,
       0x75, 0x62, 0x2B, 0x7A, 0x69, 0x70] := by decide
  have hr : (List.range 4).map (byteAt b) =
      [byteAt b 0, byteAt b 1, byteAt b 2, byteAt b 3] := rfl
  have hr28 : (List.range 28).map (fun i => byteAt b (30 + i)) =
      [byteAt b 30, byteAt b 31, byteAt b 32, byteAt b 33, byteAt b 34,
       byteAt b 35, byteAt b 36, byteAt b 37, byteAt b 38, byteAt b 39,
       byteAt b 40, byteAt b 41, byteAt b 42, byteAt b 43, byteAt b 44,
       byteAt b 45, byteAt b 46, byteAt b 47, byteAt b 48, byteAt b 49,
       byteAt b 50, byteAt b 51, byteAt b 52, byteAt b 53, byteAt b 54,
       byteAt b 55, byteAt b 56, byteAt b 57] := rfl
  rw [hm, hr, hr28]
  simp [and_assoc]

/-- C6: `contentType` returns `"application/pdf"` exactly when the input has
at least 4 bytes and starts with the ASCII bytes `%PDF`; returns
`"application/epub+zip"` exactly when the input has at least 58 bytes, its
first four bytes are `50 4B 03 04`, and bytes 30 through 57 spell the ASCII
string `mimetypeapplication/epub+zip`; returns the empty string in every
other case, in particular for every input shorter than 4 bytes. -/
theorem contentType_spec (b : List Nat) :
    (contentType b = "application/pdf" ↔ pdfSpec b) ∧
    (contentType b = "application/epub+zip" ↔ epubSpec b) ∧
    (contentType b = "" ↔ (¬ pdfSpec b ∧ ¬ epubSpec b)) ∧
    (b.length < 4 → contentType b = "") := by
  rw [pdfSpec_iff, epubSpec_iff]
  unfold contentType
  split
  · rename_i h
    refine ⟨iff_of_true rfl (by omega), iff_of_false (by decide) (by omega),
      iff_of_false (by decide) (by omega), fun hl => absurd hl (by omega)⟩
  · split
    · rename_i h1 h2
      refine ⟨iff_of_false (by decide) (by omega), iff_of_true rfl (by omega),
        iff_of_false (by decide) (by omega), fun hl => absurd hl (by omega)⟩
    · rename_i h1 h2
      refine ⟨iff_of_false (by decide) (by omega),
        iff_of_false (by decide) (by omega), iff_of_true rfl (by omega),
        fun _ => rfl⟩

/-- Witness for `contentType_spec`: the 3-byte input `[0, 0, 0]` is shorter
than 4 bytes and is classified as neither format. -/
theorem contentType_spec_witness :
    ([0, 0, 0] : List Nat).length < 4 ∧ contentType [0, 0, 0] = "" :=
  ⟨by decide, (contentType_spec [0, 0, 0]).2.2.2 (by decide)⟩

/-- C4: `Text i` fails with `ErrPageMissing` exactly when `i < 0` or
`i ≥ NumPage()`, and for every in-range page it succeeds with the (possibly
empty) extracted string and no error. -/
theorem text_spec (f : Document) (i : Int) :
    (f.Text i = .error .pageMissing ↔ (i < 0 ∨ f.NumPage ≤ i)) ∧
    ((0 ≤ i ∧ i < f.NumPage) → f.Text i = .ok (f.native.pageText i)) := by
  unfold Document.Text Document.NumPage
  constructor
  · split
    · simp_all
    · simp_all
  · intro h
    rw [if_neg]
    omega

/-- Witness for `text_spec`: page 0 of the sample document is in range and
text extraction succeeds. -/
theorem text_spec_witness :
    (0 ≤ (0 : Int) ∧ (0 : Int) < sampleDoc.NumPage) ∧
      sampleDoc.Text 0 = .ok (sampleDoc.native.pageText 0) :=
  ⟨by decide, (text_spec sampleDoc 0).2 (by decide)⟩

/-- C3: `ImageBytes n` fails with `ErrObjMissing` exactly when `n ≤ 0` or
`n ≥ NumObj()`; for `n` in `[1, NumObj())` it returns either the PNG bytes
(exactly when the object's `Subtype` is `Image`) or fails with
`ErrNotImage` (exactly when it is not) — never both and never another
error. -/
theorem imageBytes_spec (f : Document) (n : Int) :
    (f.ImageBytes n = .error .objMissing ↔ (n ≤ 0 ∨ f.NumObj ≤ n)) ∧
    ((1 ≤ n ∧ n < f.NumObj) →
      (f.ImageBytes n = .ok (f.saveImage n) ∨
        f.ImageBytes n = .error .notImage) ∧
      (f.ImageBytes n = .ok (f.saveImage n) ↔ f.isImage n = true) ∧
      (f.ImageBytes n = .error .notImage ↔ f.isImage n = false)) := by
  unfold Document.ImageBytes Document.NumObj
  constructor
  · split
    · simp_all
    · split <;> simp_all
  · intro h
    rw [if_neg (by omega)]
    split <;> simp_all

/-- Witness for `imageBytes_spec`: object 1 of the sample document is in
range and yields either PNG bytes or `ErrNotImage`. -/
theorem imageBytes_spec_witness :
    (1 ≤ (1 : Int) ∧ (1 : Int) < sampleDoc.NumObj) ∧
      (sampleDoc.ImageBytes 1 = .ok (sampleDoc.saveImage 1) ∨
        sampleDoc.ImageBytes 1 = .error .notImage) :=
  ⟨by decide, ((imageBytes_spec sampleDoc 1).2 (by decide)).1⟩

/-- C7: `Metadata()` has no error result and its output holds exactly the
ten fixed keys, in the order the source inserts them, each mapped to a
(possibly empty) string — absent native fields come back as empty strings
from the bounded lookup, never as missing keys. -/
theorem metadata_spec (f : Document) :
    (f.Metadata).map Prod.fst =
      ["format", "encryption", "title", "author", "subject", "keywords",
       "creator", "producer", "creationDate", "modDate"] ∧
    (f.Metadata).length = 10 :=
  ⟨rfl, rfl⟩

/-- C10: `Close()` always returns `nil`: its error result is the literal
`nil` on the only return path, whatever the state of the handle. -/
theorem close_returns_nil (f : Document) : (f.Close).2 = none := rfl

/-- Every entry emitted by `walk o l` has level at least `l`. -/
theorem walk_mem_level_ge (o : FzOutline) :
    ∀ (l : Int), ∀ e ∈ walk o l, l ≤ e.Level := by
  induction o with
  | nil =>
    intro l e he
    simp [walk] at he
  | node t u p y down next ihd ihn =>
    intro l e he
    simp only [walk, List.mem_cons, List.mem_append] at he
    rcases he with he | he | he
    · rw [he]
    · have := ihd (l + 1) e he
      omega
    · exact ihn l e he

/-- The first entry emitted by `walk o l`, when there is one, has level
exactly `l`. -/
theorem walk_head_level (o : FzOutline) (l : Int) :
    ∀ e ∈ (walk o l).head?, e.Level = l := by
  cases o with
  | nil => simp [walk]
  | node t u p y down next =>
    intro e he
    simp only [walk, List.head?_cons, Option.mem_def, Option.some.injEq] at he
    rw [← he]

/-- From membership in `getLast?` to membership in the list. -/
theorem mem_of_mem_getLast (l : List Outline) (a : Outline)
    (h : a ∈ l.getLast?) : a ∈ l := by
  obtain ⟨hne, heq⟩ := List.mem_getLast?_eq_getLast h
  rw [heq]
  exact List.getLast_mem hne

/-- Successive entries emitted by `walk` never jump up by more than one
level: each entry's level is at most the previous entry's level plus 1. -/
theorem walk_chain (o : FzOutline) :
    ∀ l : Int, List.Chain' (fun a b => b.Level ≤ a.Level + 1) (walk o l) := by
  induction o with
  | nil =>
    intro l
    simp [walk]
  | node t u p y down next ihd ihn =>
    intro l
    show List.Chain' _
      ({ Level := l, Title := t, URI := u, Page := p, Top := y } ::
        (walk down (l + 1) ++ walk next l))
    apply List.chain'_cons'.mpr
    constructor
    · intro b hb
      rcases hd : walk down (l + 1) with _ | ⟨x, xs⟩
      · rw [hd, List.nil_append] at hb
        have := walk_head_level next l b hb
        show b.Level ≤ l + 1
        omega
      · rw [hd, List.cons_append, List.head?_cons, Option.mem_def,
          Option.some.injEq] at hb
        have hmem : b ∈ (walk down (l + 1)).head? := by
          rw [hd, List.head?_cons, Option.mem_def, hb]
        have := walk_head_level down (l + 1) b hmem
        show b.Level ≤ l + 1
        omega
    · apply List.chain'_append.mpr
      refine ⟨ihd (l + 1), ihn l, ?_⟩
      intro a ha b hb
      have hal : l + 1 ≤ a.Level :=
        walk_mem_level_ge down (l + 1) a (mem_of_mem_getLast _ a ha)
      have hbl : b.Level = l := walk_head_level next l b hb
      omega

/-- C5: every sequence returned by `ToC` starts (when non-empty) with a
level-1 entry, has every level at least 1, and never lets an entry's level
exceed the previous entry's level plus 1 — the depth-first pre-order
flattening with child levels one above their parent's. -/
theorem toc_spec (f : Document) (seq : List Outline)
    (h : f.ToC = .ok seq) :
    (∀ e ∈ seq.head?, e.Level = 1) ∧
    (∀ e ∈ seq, 1 ≤ e.Level) ∧
    List.Chain' (fun a b => b.Level ≤ a.Level + 1) seq := by
  unfold Document.ToC at h
  rcases ho : f.native.outline with _ | ⟨t, u, p, y, d, n⟩
  · rw [ho] at h
    exact absurd h (by simp)
  · rw [ho] at h
    simp only [Except.ok.injEq] at h
    rw [← h]
    exact ⟨walk_head_level _ 1, walk_mem_level_ge _ 1, walk_chain _ 1⟩

/-- The flattened table of contents of `sampleDoc`. -/
def sampleToc : List Outline :=
  [{ Level := 1, Title := "Intro", URI := "", Page := 0, Top := 0.0 },
   { Level := 2, Title := "Detail", URI := "", Page := 1, Top := 0.0 },
   { Level := 1, Title := "End", URI := "#end", Page := 1, Top := 0.0 }]

/-- Witness for `toc_spec`: the sample document's outline flattens to a
three-entry sequence satisfying the level discipline. -/
theorem toc_spec_witness :
    (∀ e ∈ sampleToc.head?, e.Level = 1) ∧
    (∀ e ∈ sampleToc, 1 ≤ e.Level) ∧
    List.Chain' (fun a b => b.Level ≤ a.Level + 1) sampleToc :=
  toc_spec sampleDoc sampleToc rfl

/-- C8: when the environment and stream/context calls succeed but the
document is encrypted, `New` and `NewFromMemory` return `ErrNeedsPassword`
while still populating the handle's page and object counts and leaving the
native context and document live — a partially constructed handle the caller
must still close. -/
theorem needs_password_partial_handle (fe : FileEnv) (me : MemEnv)
    (hfa : fe.absOk = true) (hff : fe.fileExists = true)
    (hfc : fe.ctxOk = true) (hfo : fe.openOk = true)
    (hfp : fe.parsed.needsPassword = true)
    (hmc : me.ctxOk = true) (hms : me.streamOk = true)
    (hmo : me.openOk = true) (hmp : me.parsed.needsPassword = true) :
    (New fe).2 = some .needsPassword ∧
    (New fe).1.ctxLive = true ∧ (New fe).1.pdfLive = true ∧
    (New fe).1.pageTotal = fe.parsed.pages ∧
    (New fe).1.objTotal = fe.parsed.objs ∧
    (NewFromMemory me).2 = some .needsPassword ∧
    (NewFromMemory me).1.ctxLive = true ∧
    (NewFromMemory me).1.pdfLive = true ∧
    (NewFromMemory me).1.pageTotal = me.parsed.pages ∧
    (NewFromMemory me).1.objTotal = me.parsed.objs := by
  simp [New, NewFromMemory, hfa, hff, hfc, hfo, hfp, hmc, hms, hmo, hmp]

/-- A file-open environment for an encrypted document. -/
def encFileEnv : FileEnv where
  absOk := true
  absErr := ""
  fileExists := true
  ctxOk := true
  openOk := true
  parsed := { sampleNative with needsPassword := true }

/-- A memory-open environment for an encrypted document. -/
def encMemEnv : MemEnv where
  ctxOk := true
  streamOk := true
  openOk := true
  parsed := { sampleNative with needsPassword := true }

/-- Witness for `needs_password_partial_handle` at concrete encrypted
environments. -/
theorem needs_password_partial_handle_witness :
    (New encFileEnv).2 = some .needsPassword ∧
    (NewFromMemory encMemEnv).2 = some .needsPassword ∧
    (New encFileEnv).1.ctxLive = true :=
  ⟨(needs_password_partial_handle encFileEnv encMemEnv rfl rfl rfl rfl rfl
      rfl rfl rfl rfl).1,
   (needs_password_partial_handle encFileEnv encMemEnv rfl rfl rfl rfl rfl
      rfl rfl rfl rfl).2.2.2.2.2.1,
   (needs_password_partial_handle encFileEnv encMemEnv rfl rfl rfl rfl rfl
      rfl rfl rfl rfl).2.1⟩

/-- C9: `NewFromReader` drains the reader with `ReadAll`; a read error is
returned verbatim (its payload is preserved and it is none of the library's
own eleven error values) with no document; on success it returns exactly
what `NewFromMemory` returns on the drained bytes. -/
theorem newFromReader_spec (nativeOf : List Nat → MemEnv)
    (r : List ReadStep) :
    (∀ e, readAll r = .error e →
      NewFromReader nativeOf r = (none, some (.ioError e)) ∧
      Err.ioError e ∉ fitzTaxonomy) ∧
    (∀ b, readAll r = .ok b →
      NewFromReader nativeOf r =
        (some (NewFromMemory (nativeOf b)).1, (NewFromMemory (nativeOf b)).2)) := by
  constructor
  · intro e he
    constructor
    · unfold NewFromReader
      rw [he]
    · simp [fitzTaxonomy]
  · intro b hb
    unfold NewFromReader
    rw [hb]

/-- A reader that yields one chunk and then fails. -/
def failingReader : List ReadStep := [.chunk [1], .fail "boom"]

/-- A reader that yields two chunks and then end of stream. -/
def okReader : List ReadStep := [.chunk [0x25], .chunk [0x50], .eof]

/-- A native oracle for `NewFromReader` tests. -/
def sampleNativeOf : List Nat → MemEnv := fun _ =>
  { ctxOk := true, streamOk := true, openOk := true, parsed := sampleNative }

/-- Witness for `newFromReader_spec`: a failing reader propagates `"boom"`
verbatim, and a succeeding reader delegates to `NewFromMemory` on the
concatenation of its chunks. -/
theorem newFromReader_spec_witness :
    NewFromReader sampleNativeOf failingReader =
      (none, some (.ioError "boom")) ∧
    NewFromReader sampleNativeOf okReader =
      (some (NewFromMemory (sampleNativeOf [0x25, 0x50])).1,
        (NewFromMemory (sampleNativeOf [0x25, 0x50])).2) :=
  ⟨((newFromReader_spec sampleNativeOf failingReader).1 "boom" rfl).1,
   (newFromReader_spec sampleNativeOf okReader).2 [0x25, 0x50] rfl⟩

/-- C1 counterexample: on the sample document, `ToC` and `Metadata` perform
native calls into the parsing context while the access lock is never
acquired, so the claim that every one of Text / ImageBytes / ToC / Metadata
holds `mtx` for its full duration is false. -/
theorem lock_claim_counterexample :
    touchesNative (tocTrace sampleDoc) = true ∧
    wellLocked (tocTrace sampleDoc) = false ∧
    touchesNative (metadataTrace sampleDoc) = true ∧
    wellLocked (metadataTrace sampleDoc) = false :=
  ⟨rfl, rfl, rfl, rfl⟩

/-- C1 (amended): `Text` and `ImageBytes` (and `Image`, which goes through
`ImageBytes`) acquire `mtx` at entry and hold it across every native call,
releasing it on every exit path; `ToC` and `Metadata`, however, perform
their native calls without ever touching the lock. -/
theorem lock_discipline (f : Document) (i n : Int) :
    wellLocked (textTrace f i) = true ∧
    wellLocked (imageBytesTrace f n) = true ∧
    wellLocked (imageTrace f n) = true ∧
    wellLocked (tocTrace f) = false ∧
    wellLocked (metadataTrace f) = false := by
  refine ⟨?_, ?_, ?_, ?_, ?_⟩
  · unfold wellLocked textTrace
    split <;> rfl
  · unfold wellLocked imageBytesTrace
    split
    · rfl
    · split <;> rfl
  · unfold wellLocked imageTrace imageBytesTrace
    split
    · rfl
    · split <;> rfl
  · unfold wellLocked tocTrace
    cases f.native.outline <;> rfl
  · rfl

/-- C2 counterexample: the sample document is successfully used (`Text 0`
returns text), then closed; afterwards `Text 0` is not rejected by any
guard — it returns the same success result and its trace still performs
native calls although the context has been released. -/
theorem close_guard_counterexample :
    sampleDoc.Text 0 = .ok "hello" ∧
    ((sampleDoc.Close).1).ctxLive = false ∧
    ((sampleDoc.Close).1).Text 0 = .ok "hello" ∧
    touchesNative (textTrace (sampleDoc.Close).1 0) = true :=
  ⟨rfl, rfl, rfl, rfl⟩

/-- C2 (amended): `Close` releases the native document and context but sets
no closed flag, and no operation checks one: after `Close` every operation
behaves exactly as before it (same results, same native-call traces), so an
in-range call proceeds against the released native state instead of being
rejected. -/
theorem close_no_guard (f : Document) (i n : Int) :
    ((f.Close).1).ctxLive = false ∧
    ((f.Close).1).pdfLive = false ∧
    ((f.Close).1).Text i = f.Text i ∧
    ((f.Close).1).ImageBytes n = f.ImageBytes n ∧
    ((f.Close).1).ToC = f.ToC ∧
    ((f.Close).1).Metadata = f.Metadata ∧
    textTrace (f.Close).1 i = textTrace f i ∧
    imageBytesTrace (f.Close).1 n = imageBytesTrace f n :=
  ⟨rfl, rfl, rfl, rfl, rfl, rfl, rfl, rfl⟩

end Fitz
